import Mathlib

/-!
Verification of the task-reminder scheduling core (server/scheduler.py,
server/database.py, server/main.py) against its natural-language
specification.  The Python code is shallowly embedded: the SQLite store
becomes a pure `DBState`, the APScheduler registry becomes a list of armed
jobs, every operation is a pure state transformer, and the outcome of one
external execution is passed in as data (`ExecOutcome`).  `json.dumps` /
`json.loads` on lists of strings (the only shape the code stores in the
`script_args` column) are embedded as an executable codec following
CPython's `json` encoder/decoder.
-/

namespace TaskReminder

/-! ## JSON string-list codec (CPython json.dumps / json.loads on List String) -/

/-- Lowercase hex digit, as used by CPython's `\uXXXX` escapes. -/
def hexDig (n : Nat) : Char := if n < 10 then Char.ofNat (48 + n) else Char.ofNat (87 + n)

/-- Four lowercase hex digits of `n < 0x10000`. -/
def toHex4 (n : Nat) : List Char :=
  [hexDig (n / 4096 % 16), hexDig (n / 256 % 16), hexDig (n / 16 % 16), hexDig (n % 16)]

/-- CPython `json.encoder.py_encode_basestring_ascii`, per character: `\` and
`"` and the control characters b/t/n/f/r get two-character escapes, every
other character below 0x20 or above 0x7e becomes `\uXXXX` (a surrogate pair
for astral characters, written here with `/ 1024` and `% 1024` for the
bit operations `>> 10` and `& 0x3ff`), and the rest is passed through. -/
def escChar (c : Char) : List Char :=
  let n := c.toNat
  if c = '\\' then ['\\', '\\']
  else if c = '"' then ['\\', '"']
  else if n = 8 then ['\\', 'b']
  else if n = 9 then ['\\', 't']
  else if n = 10 then ['\\', 'n']
  else if n = 12 then ['\\', 'f']
  else if n = 13 then ['\\', 'r']
  else if n < 32 || n > 126 then
    if n < 65536 then '\\' :: 'u' :: toHex4 n
    else
      ('\\' :: 'u' :: toHex4 (55296 + (n - 65536) / 1024)) ++
        ('\\' :: 'u' :: toHex4 (56320 + (n - 65536) % 1024))
  else [c]

/-- A JSON string literal: quote, escaped body, quote. -/
def encStr (s : List Char) : List Char := '"' :: (s.flatMap escChar ++ ['"'])

/-- Join with `", "`, the default item separator of `json.dumps`. -/
def sepByCommaSpace : List (List Char) → List Char
  | [] => []
  | [x] => x
  | x :: xs => x ++ ',' :: ' ' :: sepByCommaSpace xs

/-- `json.dumps` of a list of strings (default arguments, as in
`database.py add_task`). -/
def json_dumps (l : List String) : String :=
  String.mk ('[' :: (sepByCommaSpace (l.map fun s => encStr s.data) ++ [']']))

/-- Hex digit value; `json.loads` accepts both cases. -/
def unhex (c : Char) : Option Nat :=
  if 48 ≤ c.toNat ∧ c.toNat ≤ 57 then some (c.toNat - 48)
  else if 97 ≤ c.toNat ∧ c.toNat ≤ 102 then some (c.toNat - 87)
  else if 65 ≤ c.toNat ∧ c.toNat ≤ 70 then some (c.toNat - 55)
  else none

/-- Parse exactly four hex digits. -/
def hex4 : List Char → Option (Nat × List Char)
  | c0 :: c1 :: c2 :: c3 :: rest =>
    match unhex c0, unhex c1, unhex c2, unhex c3 with
    | some d0, some d1, some d2, some d3 =>
      some (((d0 * 16 + d1) * 16 + d2) * 16 + d3, rest)
    | _, _, _, _ => none
  | _ => none

/-- The BACKSLASH table of `json.scanner`: the single-character escapes. -/
def escMap (c : Char) : Option Char :=
  if c = '"' then some '"'
  else if c = '\\' then some '\\'
  else if c = '/' then some '/'
  else if c = 'b' then some (Char.ofNat 8)
  else if c = 'f' then some (Char.ofNat 12)
  else if c = 'n' then some (Char.ofNat 10)
  else if c = 'r' then some (Char.ofNat 13)
  else if c = 't' then some (Char.ofNat 9)
  else none

/-- After a high surrogate `\uXXXX`, CPython `py_scanstring` looks for a
following `\uXXXX` low surrogate and recombines the pair into one scalar
(`0x10000 + ((u1 - 0xd800) << 10 | (u2 - 0xdc00))`, written
arithmetically).  A lone surrogate, which Python would keep as an unpaired
code unit, is not representable as a Unicode scalar and is mapped to
`none`; the encoder never produces one. -/
def decodePair (u1 : Nat) : List Char → Option (List Char × List Char)
  | '\\' :: 'u' :: r2 =>
    match hex4 r2 with
    | none => none
    | some (u2, r3) =>
      if 56320 ≤ u2 ∧ u2 ≤ 57343 then
        some ([Char.ofNat (65536 + (u1 - 55296) * 1024 + (u2 - 56320))], r3)
      else none
  | _ => none

/-- Decode a `\uXXXX` escape: four hex digits, then surrogate handling. -/
def decodeU (rest : List Char) : Option (List Char × List Char) :=
  match hex4 rest with
  | none => none
  | some (u1, r1) =>
    if 55296 ≤ u1 ∧ u1 ≤ 56319 then decodePair u1 r1
    else if 56320 ≤ u1 ∧ u1 ≤ 57343 then none
    else some ([Char.ofNat u1], r1)

/-- Decode one escape sequence (the part after the backslash), as CPython
`py_scanstring` does: `\uXXXX` escapes or a single-character escape from
the BACKSLASH table. -/
def decodeEsc : List Char → Option (List Char × List Char)
  | [] => none
  | 'u' :: rest => decodeU rest
  | c :: rest => (escMap c).map fun d => ([d], rest)

/-- JSON whitespace. -/
def jsonWs (c : Char) : Bool := c = ' ' || c = '\t' || c = '\n' || c = '\r'

def skipWs (l : List Char) : List Char := l.dropWhile jsonWs

/-- Scan a JSON string body after the opening quote (CPython
`py_scanstring`, strict mode: a raw control character is an error).
Returns the decoded characters and the input after the closing quote.
Fuel-indexed so that the definition is structurally recursive; one unit of
fuel is spent per scanned chunk, so `input.length + 1` fuel always
suffices. -/
def scanS : Nat → List Char → Option (List Char × List Char)
  | 0, _ => none
  | _ + 1, [] => none
  | f + 1, c :: rest =>
    if c = '"' then some ([], rest)
    else if c = '\\' then
      match decodeEsc rest with
      | none => none
      | some (out, r1) =>
        match scanS f r1 with
        | none => none
        | some (s, r2) => some (out ++ s, r2)
    else if c.toNat < 32 then none
    else
      match scanS f rest with
      | none => none
      | some (s, r2) => some (c :: s, r2)

/-- Scan the comma-separated items of a JSON array of strings, positioned at
the first item, consuming the closing `]` (the JSONArray loop of
`json.scanner`, restricted to string elements — the only shape
`database.py` ever stores in `script_args`). -/
def scanItems : Nat → List Char → Option (List (List Char) × List Char)
  | 0, _ => none
  | f + 1, '"' :: rest =>
    match scanS (rest.length + 1) rest with
    | none => none
    | some (s, r1) =>
      match skipWs r1 with
      | ',' :: r2 =>
        match scanItems f (skipWs r2) with
        | none => none
        | some (items, r3) => some (s :: items, r3)
      | ']' :: r2 => some ([s], r2)
      | _ => none
  | _ + 1, _ => none

/-- `json.loads` restricted to arrays of strings (the only values
`database.py` writes to the `script_args` column); anything else is `none`,
where CPython would raise or return a non-list.  Trailing content other
than whitespace is an error, as in `JSONDecoder.decode`. -/
def json_loads (s : String) : Option (List String) :=
  match skipWs s.data with
  | '[' :: r =>
    match skipWs r with
    | ']' :: r2 => if skipWs r2 = [] then some [] else none
    | r1 =>
      match scanItems (r1.length + 1) r1 with
      | none => none
      | some (items, rest) =>
        if skipWs rest = [] then some (items.map String.mk) else none
  | _ => none

/-- The encoded items of a JSON array of strings, without the brackets
(`json_dumps` is `'[' :: itemsEnc ... ++ "]"`). -/
def itemsEnc (l : List (List Char)) : List Char := sepByCommaSpace (l.map encStr)

/-! ## Data model -/

/-- The task-creation payload: the fields of `TaskCreate` in `main.py`
(`model_dump()` yields exactly these keys), which is also the dict shape
`scheduler.add_task` consumes.  When a task is reloaded from the database,
`_row_to_dict` produces a dict with the same keys (plus `status`,
`created_at`, `updated_at`, which `scheduler.add_task` never reads and
which are therefore not modelled here). -/
structure TaskData where
  task_id : String
  task_type : String
  interval_seconds : Option Int
  cron_expression : Option String
  execute_at : Option String
  script_path : String
  script_args : List String
deriving DecidableEq

/-- One row of the `tasks` table (`database.py init_database`); the
`script_args` column holds the JSON text produced by `json.dumps`. -/
structure TaskRow where
  task_id : String
  task_type : String
  interval_seconds : Option Int
  cron_expression : Option String
  execute_at : Option String
  script_path : String
  script_args : String
  status : String
  created_at : String
  updated_at : String
deriving DecidableEq

/-- One row of the `execution_history` table. -/
structure ExecRow where
  id : Nat
  task_id : String
  executed_at : String
  return_code : Int
  stdout : String
  stderr : String
deriving DecidableEq

/-- The SQLite database: both tables plus the AUTOINCREMENT counter. -/
structure DBState where
  tasks : List TaskRow
  history : List ExecRow
  nextId : Nat
deriving DecidableEq

/-- An APScheduler trigger as built by `_create_trigger`. -/
inductive Trigger where
  | interval (seconds : Int)
  | cron (minute hour day month dow : String)
  | date (runDate : String)
deriving DecidableEq

/-- A Python exception escaping `scheduler.add_task`: `ValueError` (which
`main.create_task` maps to HTTP 400) or any other exception type (mapped
to HTTP 500). -/
inductive PyErr where
  | valueError (msg : String)
  | otherError (msg : String)
deriving DecidableEq

/-- One armed APScheduler job: `add_job(func=_execute_task, id=task_id,
args=[task_id, script_path, script_args])`. -/
structure Job where
  id : String
  trigger : Trigger
  script_path : String
  script_args : List String
deriving DecidableEq

/-- Whole-system state: the database plus the in-memory job registry. -/
structure SysState where
  db : DBState
  registry : List Job
deriving DecidableEq

/-- The outcome of running the external program once (`subprocess.run` in
`_execute_task`): a normal exit with captured streams, expiry of the
60-second timeout, or a spawn failure / other exception with its text. -/
inductive ExecOutcome where
  | exited (returncode : Int) (stdout stderr : String)
  | timedOut
  | spawnFailure (msg : String)
deriving DecidableEq

/-- The `timeout=60` argument of `subprocess.run` in `_execute_task`. -/
def executionTimeoutSeconds : Nat := 60

/-! ## database.py -/

/-- The row the INSERT of `Database.add_task` writes: `script_args`
serialized with `json.dumps`, `status = 'active'`,
`created_at = updated_at = now`. -/
def taskRowOf (d : TaskData) (now : String) : TaskRow :=
  { task_id := d.task_id
    task_type := d.task_type
    interval_seconds := d.interval_seconds
    cron_expression := d.cron_expression
    execute_at := d.execute_at
    script_path := d.script_path
    script_args := json_dumps d.script_args
    status := "active"
    created_at := now
    updated_at := now }

/-- `Database.add_task`: INSERT with `task_id` as PRIMARY KEY; an
`IntegrityError` (duplicate key) returns `False` and changes nothing. -/
def db_add_task (d : TaskData) (now : String) (db : DBState) : Bool × DBState :=
  if db.tasks.any (fun r => r.task_id == d.task_id) then (false, db)
  else (true, { db with tasks := db.tasks ++ [taskRowOf d now] })

/-- `Database._row_to_dict`: decode the JSON `script_args` column back to a
list.  `none` models `json.loads` raising.  (The code skips decoding when
the column text is falsy; `add_task` always stores at least `"[]"`, so the
only falsy text, the empty string, is unreachable and also mapped to
`none`.) -/
def row_to_dict (r : TaskRow) : Option TaskData :=
  if r.script_args = "" then none
  else
    (json_loads r.script_args).map fun args =>
      { task_id := r.task_id
        task_type := r.task_type
        interval_seconds := r.interval_seconds
        cron_expression := r.cron_expression
        execute_at := r.execute_at
        script_path := r.script_path
        script_args := args }

/-- `Database.get_task`: `SELECT * FROM tasks WHERE task_id = ?` then
`_row_to_dict`.  `Except.error` models the decode raising. -/
def db_get_task (db : DBState) (tid : String) : Except String (Option TaskData) :=
  match db.tasks.find? (fun r => r.task_id == tid) with
  | none => Except.ok none
  | some r =>
    match row_to_dict r with
    | some d => Except.ok (some d)
    | none => Except.error ("json decode error: " ++ r.script_args)

/-- Decode rows one by one, as the list comprehension
`[self._row_to_dict(row) for row in rows]` does; the first decode
exception aborts the whole query (`none`). -/
def traverseRows : List TaskRow → Option (List TaskData)
  | [] => some []
  | r :: rest =>
    match row_to_dict r with
    | none => none
    | some d =>
      match traverseRows rest with
      | none => none
      | some ds => some (d :: ds)

/-- `Database.get_active_tasks`: `WHERE status = 'active'`, each row through
`_row_to_dict`. -/
def get_active_tasks (db : DBState) : Option (List TaskData) :=
  traverseRows (db.tasks.filter (fun r => r.status == "active"))

/-- `Database.delete_task`: DELETE, returning `rowcount > 0`. -/
def db_delete_task (tid : String) (db : DBState) : Bool × DBState :=
  (db.tasks.any (fun r => r.task_id == tid),
   { db with tasks := db.tasks.filter (fun r => r.task_id != tid) })

/-- `Database.update_task_status`: `UPDATE tasks SET status = ?,
updated_at = ? WHERE task_id = ?`, returning `rowcount > 0`. -/
def update_task_status (tid status now : String) (db : DBState) : Bool × DBState :=
  (db.tasks.any (fun r => r.task_id == tid),
   { db with tasks := db.tasks.map fun r =>
      if r.task_id == tid then { r with status := status, updated_at := now } else r })

/-- The per-row effect of the completion UPDATE
(`update_task_status(task_id, 'completed')`). -/
def completeRow (tid now : String) (r : TaskRow) : TaskRow :=
  if r.task_id == tid then { r with status := "completed", updated_at := now } else r

/-- `Database.add_execution_log`: append one row with the AUTOINCREMENT id
and `executed_at = datetime.now().isoformat()`. -/
def add_execution_log (tid : String) (rc : Int) (out err now : String) (db : DBState) :
    DBState :=
  { db with
    history := db.history ++
      [{ id := db.nextId, task_id := tid, executed_at := now,
         return_code := rc, stdout := out, stderr := err }]
    nextId := db.nextId + 1 }

/-- Insert into a list already sorted by `executed_at` descending. -/
def insertByExecDesc (r : ExecRow) : List ExecRow → List ExecRow
  | [] => [r]
  | x :: xs =>
    if x.executed_at ≤ r.executed_at then r :: x :: xs else x :: insertByExecDesc r xs

/-- The `ORDER BY executed_at DESC` of `get_execution_history`, modelled as
an insertion sort. -/
def sortByExecDesc (l : List ExecRow) : List ExecRow := l.foldr insertByExecDesc []

/-- `Database.get_execution_history(task_id=None)`: note the Python
truthiness test `if task_id:` — a `None` **or empty-string** id yields all
records; otherwise records are filtered by `task_id`.  Always
`ORDER BY executed_at DESC`. -/
def get_execution_history (q : Option String) (db : DBState) : List ExecRow :=
  match q with
  | some tid =>
    if tid = "" then sortByExecDesc db.history
    else sortByExecDesc (db.history.filter (fun r => r.task_id == tid))
  | none => sortByExecDesc db.history

/-! ## External-library behavior used by scheduler.py -/

/-- Word accumulator for `pySplit`: `cur` holds the current word reversed. -/
def pyWords : List Char → List Char → List String
  | [], cur => if cur = [] then [] else [String.mk cur.reverse]
  | c :: rest, cur =>
    if c.isWhitespace then
      if cur = [] then pyWords rest [] else String.mk cur.reverse :: pyWords rest []
    else pyWords rest (c :: cur)

/-- Python `str.split()` with no argument: split on whitespace runs,
discarding empty pieces. -/
def pySplit (s : String) : List String := pyWords s.data []

/-- Split on a separator character, keeping empty pieces (Python
`str.split(sep)`); `cur` holds the current piece reversed. -/
def splitOnCharAux (sep : Char) : List Char → List Char → List String
  | [], cur => [String.mk cur.reverse]
  | c :: rest, cur =>
    if c = sep then String.mk cur.reverse :: splitOnCharAux sep rest []
    else splitOnCharAux sep rest (c :: cur)

def splitOnChar (sep : Char) (s : String) : List String := splitOnCharAux sep s.data []

/-- Parse a decimal numeral (the `int(...)` on a cron field item). -/
def parseNat (s : String) : Option Nat :=
  if s.data = [] then none
  else if s.data.all Char.isDigit then
    some (s.data.foldl (fun a c => a * 10 + (c.toNat - 48)) 0)
  else none

/-- Modelled from the spec: APScheduler's `CronTrigger` field validation
(library code outside src/): a cron field is `*`, a literal value within
the field's range, or a comma list of literals / `a-b` ranges within the
field's range. -/
def cronItemOk (lo hi : Nat) (item : String) : Bool :=
  match splitOnChar '-' item with
  | [a] =>
    match parseNat a with
    | some n => decide (lo ≤ n) && decide (n ≤ hi)
    | none => false
  | [a, b] =>
    match parseNat a, parseNat b with
    | some x, some y => decide (lo ≤ x) && decide (x ≤ y) && decide (y ≤ hi)
    | _, _ => false
  | _ => false

/-- Modelled from the spec: one cron field, `*` or a comma list of items. -/
def cronFieldOk (lo hi : Nat) (f : String) : Bool :=
  f == "*" || (splitOnChar ',' f).all (cronItemOk lo hi)

/-- Modelled from the spec: the five cron fields with their valid ranges
(minute 0-59, hour 0-23, day-of-month 1-31, month 1-12, day-of-week 0-6). -/
def cronFieldsOk (minute hour day month dow : String) : Bool :=
  cronFieldOk 0 59 minute && cronFieldOk 0 23 hour && cronFieldOk 1 31 day &&
    cronFieldOk 1 12 month && cronFieldOk 0 6 dow

/-- A cron expression that trigger construction rejects: it does not split
into exactly five whitespace-separated fields, or a field is out of its
valid range. -/
def cronExprInvalid (e : String) : Bool :=
  match pySplit e with
  | [mi, h, da, mo, dw] => !(cronFieldsOk mi h da mo dw)
  | _ => true

/-- All characters are decimal digits and the string is nonempty. -/
def allDigits (s : String) : Bool := s.length > 0 && s.data.all Char.isDigit

/-- Modelled from the spec: Python `datetime.fromisoformat` accepting an
ISO-8601 timestamp `YYYY-MM-DD` optionally followed by a `T` or space and
`HH:MM:SS` with optional fractional seconds; field ranges are checked. -/
def pyFromIsoformatOk (s : String) : Bool :=
  let dateOk (ds : String) : Bool :=
    allDigits (ds.take 4) && ((ds.drop 4).take 1 == "-") &&
    allDigits ((ds.drop 5).take 2) && ((ds.drop 7).take 1 == "-") &&
    allDigits ((ds.drop 8).take 2) &&
    (match ((ds.drop 5).take 2).toNat?, ((ds.drop 8).take 2).toNat? with
     | some m, some d => decide (1 ≤ m) && decide (m ≤ 12) && decide (1 ≤ d) && decide (d ≤ 31)
     | _, _ => false)
  let timeOk (ts : String) : Bool :=
    allDigits (ts.take 2) && ((ts.drop 2).take 1 == ":") &&
    allDigits ((ts.drop 3).take 2) && ((ts.drop 5).take 1 == ":") &&
    allDigits ((ts.drop 6).take 2) &&
    (ts.length == 8 ||
      ((ts.drop 8).take 1 == ".") && allDigits (ts.drop 9) && decide (ts.length ≤ 15)) &&
    (match (ts.take 2).toNat?, ((ts.drop 3).take 2).toNat?, ((ts.drop 6).take 2).toNat? with
     | some h, some mi, some sec => decide (h ≤ 23) && decide (mi ≤ 59) && decide (sec ≤ 59)
     | _, _, _ => false)
  if s.length == 10 then dateOk s
  else
    decide (s.length ≥ 19) && dateOk (s.take 10) &&
      ((s.drop 10).take 1 == "T" || (s.drop 10).take 1 == " ") &&
      timeOk (s.drop 11)

/-! ## scheduler.py -/

/-- `TaskScheduler._create_trigger`: build the APScheduler trigger for the
task's type.  A cron expression is split on whitespace and must have
exactly five fields (source, scheduler.py:83-93); the field-range check of
`CronTrigger.__init__` is the spec-modelled `cronFieldsOk`.  The
non-`ValueError` exceptions (`IntervalTrigger(seconds=None)`,
`None.split()`, `fromisoformat(None)`) are `otherError`; they are
unreachable through `main.create_task`, whose truthiness checks run
first. -/
def create_trigger (d : TaskData) : Except PyErr Trigger :=
  if d.task_type == "interval" then
    match d.interval_seconds with
    | some k => Except.ok (Trigger.interval k)
    | none => Except.error (PyErr.otherError "unsupported type for timedelta seconds component: NoneType")
  else if d.task_type == "cron" then
    match d.cron_expression with
    | none => Except.error (PyErr.otherError "AttributeError: NoneType has no attribute split")
    | some e =>
      match pySplit e with
      | [mi, h, da, mo, dw] =>
        if cronFieldsOk mi h da mo dw then Except.ok (Trigger.cron mi h da mo dw)
        else Except.error (PyErr.valueError ("CronTrigger field out of range: " ++ e))
      | _ => Except.error (PyErr.valueError ("无效的cron表达式: " ++ e))
  else if d.task_type == "date" then
    match d.execute_at with
    | none => Except.error (PyErr.otherError "fromisoformat: argument must be str")
    | some t =>
      if pyFromIsoformatOk t then Except.ok (Trigger.date t)
      else Except.error (PyErr.valueError ("Invalid isoformat string: " ++ t))
  else Except.error (PyErr.valueError ("不支持的任务类型: " ++ d.task_type))

/-- `scheduler.add_job(..., replace_existing=True)`: register the job,
replacing any armed job with the same id. -/
def addJob (registry : List Job) (j : Job) : List Job :=
  j :: registry.filter (fun x => x.id != j.id)

/-- The job `scheduler.add_task` registers: `id=task_id`,
`args=[task_id, script_path, script_args]`. -/
def jobOf (d : TaskData) (tr : Trigger) : Job :=
  { id := d.task_id, trigger := tr, script_path := d.script_path,
    script_args := d.script_args }

/-- `TaskScheduler.add_task`.  When `from_db` is false the task is first
written to the database; a duplicate id raises
`ValueError("任务ID已存在: ...")`.  Only then is the trigger built — so a
trigger error propagates **after** the row was persisted and the new row
stays in the store.  On success the job is armed.  Returns the new state
together with the raised exception, if any. -/
def scheduler_add_task (d : TaskData) (fromDb : Bool) (now : String) (s : SysState) :
    SysState × Except PyErr Unit :=
  let afterDb : SysState × Option PyErr :=
    if fromDb then (s, none)
    else
      match db_add_task d now s.db with
      | (false, db1) =>
        ({ s with db := db1 }, some (PyErr.valueError ("任务ID已存在: " ++ d.task_id)))
      | (true, db1) => ({ s with db := db1 }, none)
  match afterDb with
  | (s1, some e) => (s1, Except.error e)
  | (s1, none) =>
    match create_trigger d with
    | Except.error e => (s1, Except.error e)
    | Except.ok tr =>
      ({ s1 with registry := addJob s1.registry (jobOf d tr) }, Except.ok ())

/-- `TaskScheduler.remove_task`: `scheduler.remove_job` removes the armed
job; a missing job raises `JobLookupError`, which is caught and turned
into `False`. -/
def scheduler_remove_task (tid : String) (s : SysState) : SysState × Bool :=
  ({ s with registry := s.registry.filter (fun j => j.id != tid) },
   s.registry.any (fun j => j.id == tid))

/-- The command vector `["python", str(script_path)] + script_args` built in
`_execute_task`, after the relative-path resolution against the project
directory. -/
def buildCommand (baseDir script_path : String) (script_args : List String) : List String :=
  let p := if script_path.startsWith "/" then script_path else baseDir ++ "/" ++ script_path
  "python" :: p :: script_args

/-- `TaskScheduler._execute_task` with the run's outcome given as data.
A normal exit logs `(returncode, stdout, stderr)` and then — only in this
branch — marks a `date` task completed and removes its job; the
`TimeoutExpired` handler logs `(-1, "", "执行超时")` and the generic
handler logs `(-1, "", str(e))`, neither of which touches the task's
status.  `db.get_task` raising inside the `try` (undecodable
`script_args`, unreachable for rows written by `add_task`) falls into the
generic handler, appending a second log entry. -/
def execute_task (tid script_path : String) (script_args : List String)
    (outcome : ExecOutcome) (now : String) (s : SysState) : SysState :=
  match outcome with
  | ExecOutcome.timedOut => { s with db := add_execution_log tid (-1) "" "执行超时" now s.db }
  | ExecOutcome.spawnFailure msg =>
    { s with db := add_execution_log tid (-1) "" msg now s.db }
  | ExecOutcome.exited rc out err =>
    let s1 : SysState := { s with db := add_execution_log tid rc out err now s.db }
    match db_get_task s1.db tid with
    | Except.error msg => { s1 with db := add_execution_log tid (-1) "" msg now s1.db }
    | Except.ok none => s1
    | Except.ok (some td) =>
      if td.task_type == "date" then
        let s2 := (scheduler_remove_task tid s1).1
        { s2 with db := (update_task_status tid "completed" now s2.db).2 }
      else s1

/-- Whether trigger construction succeeds for a task dict (used to state
which reloaded tasks get re-armed). -/
def trigOk (d : TaskData) : Bool :=
  match create_trigger d with
  | Except.ok _ => true
  | Except.error _ => false

/-- The `for task in tasks:` loop of `load_tasks_from_db`: arm each task
via `add_task(task, from_db=True)`, counting successes; a per-task
exception is logged and skipped. -/
def loadFold (now : String) : List TaskData → SysState × Nat → SysState × Nat
  | [], acc => acc
  | td :: tds, acc =>
    match scheduler_add_task td true now acc.1 with
    | (s1, Except.ok _) => loadFold now tds (s1, acc.2 + 1)
    | (s1, Except.error _) => loadFold now tds (s1, acc.2)

/-- `TaskScheduler.load_tasks_from_db`: read the active tasks (a decode
failure there aborts the whole reload — `none`), then run the arming
loop. -/
def load_tasks_from_db (now : String) (s : SysState) : Option (SysState × Nat) :=
  (get_active_tasks s.db).map fun tds => loadFold now tds (s, 0)

/-! ## main.py endpoints -/

/-- An HTTP error response: status code and detail text. -/
def HttpErr : Type := Nat × String

/-- Python truthiness of an optional int (`not task.interval_seconds`). -/
def pyFalsyIntOpt : Option Int → Bool
  | none => true
  | some k => k == 0

/-- Python truthiness of an optional string. -/
def pyFalsyStrOpt : Option String → Bool
  | none => true
  | some s => s == ""

/-- `main.create_task`.  The three required-field checks raise
`HTTPException(400, ...)` **inside** the `try`, so they are caught by the
blanket `except Exception` and re-surface as
`HTTPException(500, "创建任务失败: 400: ...")` (starlette's
`HTTPException.__str__` is `"{status_code}: {detail}"`).  A `ValueError`
from `scheduler.add_task` becomes a 400 with the error text; any other
exception becomes a 500. -/
def create_task (d : TaskData) (now : String) (s : SysState) :
    SysState × Except HttpErr String :=
  if d.task_type == "interval" && pyFalsyIntOpt d.interval_seconds then
    (s, Except.error (500, "创建任务失败: 400: interval类型需要提供interval_seconds"))
  else if d.task_type == "cron" && pyFalsyStrOpt d.cron_expression then
    (s, Except.error (500, "创建任务失败: 400: cron类型需要提供cron_expression"))
  else if d.task_type == "date" && pyFalsyStrOpt d.execute_at then
    (s, Except.error (500, "创建任务失败: 400: date类型需要提供execute_at"))
  else
    match scheduler_add_task d false now s with
    | (s1, Except.ok _) => (s1, Except.ok ("任务已创建: " ++ d.task_id))
    | (s1, Except.error (PyErr.valueError m)) => (s1, Except.error (400, m))
    | (s1, Except.error (PyErr.otherError m)) =>
      (s1, Except.error (500, "创建任务失败: " ++ m))

/-- `main.delete_task`.  The scheduler job is removed (never raises), then
the database row is deleted; for an absent id the code raises
`HTTPException(404, "任务不存在: ...")` **inside** the `try`, which the
blanket `except Exception` catches and re-raises as
`HTTPException(500, "删除任务失败: 404: 任务不存在: ...")`. -/
def delete_task_endpoint (tid : String) (s : SysState) : SysState × Except HttpErr String :=
  let s1 := (scheduler_remove_task tid s).1
  match db_delete_task tid s1.db with
  | (true, db1) => ({ s1 with db := db1 }, Except.ok ("任务已删除: " ++ tid))
  | (false, db1) =>
    ({ s1 with db := db1 },
     Except.error (500, "删除任务失败: 404: 任务不存在: " ++ tid))

/-! ## Concrete states and payloads used in witnesses and counterexamples -/

/-- A fresh system: empty store, empty registry, AUTOINCREMENT at 1. -/
def emptyState : SysState := { db := { tasks := [], history := [], nextId := 1 }, registry := [] }

/-- A cron task definition whose expression has three fields, not five. -/
def cronBadTask : TaskData :=
  { task_id := "t1", task_type := "cron", interval_seconds := none,
    cron_expression := some "* * *", execute_at := none,
    script_path := "scripts/send_notify.py", script_args := [] }

/-- A cron task definition with five fields but an out-of-range minute. -/
def cronRangeTask : TaskData :=
  { task_id := "t2", task_type := "cron", interval_seconds := none,
    cron_expression := some "61 0 1 1 0", execute_at := none,
    script_path := "scripts/send_notify.py", script_args := [] }

/-- A stored interval task row, as `add_task` would have written it. -/
def rowA1 : TaskRow :=
  { task_id := "a1", task_type := "interval", interval_seconds := some 60,
    cron_expression := none, execute_at := none, script_path := "scripts/remind.py",
    script_args := "[]", status := "active",
    created_at := "2024-01-01T00:00:00", updated_at := "2024-01-01T00:00:00" }

/-- A system holding the armed task `a1`. -/
def stateA1 : SysState :=
  { db := { tasks := [rowA1], history := [], nextId := 1 },
    registry := [{ id := "a1", trigger := Trigger.interval 60,
                   script_path := "scripts/remind.py", script_args := [] }] }

/-- A second task definition reusing the id `a1`. -/
def dupTask : TaskData :=
  { task_id := "a1", task_type := "interval", interval_seconds := some 30,
    cron_expression := none, execute_at := none, script_path := "scripts/other.py",
    script_args := ["x"] }

/-- A stored one-shot date task row. -/
def dateRow : TaskRow :=
  { task_id := "d1", task_type := "date", interval_seconds := none,
    cron_expression := none, execute_at := some "2024-01-01T10:00:00",
    script_path := "scripts/remind.py", script_args := "[]", status := "active",
    created_at := "2024-01-01T00:00:00", updated_at := "2024-01-01T00:00:00" }

/-- A system holding the armed date task `d1`. -/
def dateState : SysState :=
  { db := { tasks := [dateRow], history := [], nextId := 1 },
    registry := [{ id := "d1", trigger := Trigger.date "2024-01-01T10:00:00",
                   script_path := "scripts/remind.py", script_args := [] }] }

/-- An interval task definition with a negative interval. -/
def negIntervalTask : TaskData :=
  { task_id := "i1", task_type := "interval", interval_seconds := some (-5),
    cron_expression := none, execute_at := none, script_path := "scripts/remind.py",
    script_args := [] }

/-- An interval task definition with interval zero. -/
def zeroIntervalTask : TaskData :=
  { task_id := "i0", task_type := "interval", interval_seconds := some 0,
    cron_expression := none, execute_at := none, script_path := "scripts/remind.py",
    script_args := [] }

/-- An active stored cron row with a three-field expression: persisted by the
add path (which writes the row before building the trigger), impossible to
re-arm. -/
def badCronRow : TaskRow :=
  { task_id := "c1", task_type := "cron", interval_seconds := none,
    cron_expression := some "* * *", execute_at := none,
    script_path := "scripts/send_notify.py", script_args := "[]", status := "active",
    created_at := "2024-01-01T00:00:00", updated_at := "2024-01-01T00:00:00" }

/-- A database holding only the unparseable active cron task. -/
def badCronDB : DBState := { tasks := [badCronRow], history := [], nextId := 1 }

/-- A completed date task row, as left behind after its single fire. -/
def doneDateRow : TaskRow :=
  { task_id := "d2", task_type := "date", interval_seconds := none,
    cron_expression := none, execute_at := some "2024-01-01T10:00:00",
    script_path := "scripts/remind.py", script_args := "[]", status := "completed",
    created_at := "2024-01-01T00:00:00", updated_at := "2024-01-01T10:00:01" }

/-- The restart scenario of the spec: one Active interval task and one
Completed date task persisted. -/
def restartDB : DBState := { tasks := [rowA1, doneDateRow], history := [], nextId := 1 }

/-- An execution record of task `x`. -/
def recX : ExecRow :=
  { id := 1, task_id := "x", executed_at := "2024-01-01T00:00:00",
    return_code := 0, stdout := "", stderr := "" }

/-- A database holding one execution record. -/
def histDB : DBState := { tasks := [], history := [recX], nextId := 2 }

/-- The decoded dict of `dateRow`, as `_row_to_dict` returns it. -/
def dateTaskData : TaskData :=
  { task_id := "d1", task_type := "date", interval_seconds := none,
    cron_expression := none, execute_at := some "2024-01-01T10:00:00",
    script_path := "scripts/remind.py", script_args := [] }

/-- A creation payload with two ordered script arguments. -/
def argsTask : TaskData :=
  { task_id := "w8", task_type := "interval", interval_seconds := some 5,
    cron_expression := none, execute_at := none, script_path := "scripts/remind.py",
    script_args := ["hello", "world x"] }

/-! ## Lemmas: JSON round trip -/

theorem mk_data (s : String) : String.mk s.data = s := rfl

theorem escChar_length_pos (c : Char) : 1 ≤ (escChar c).length := by
  unfold escChar
  dsimp only
  split_ifs <;> simp [toHex4]

theorem length_le_flatMap_escChar (s : List Char) : s.length ≤ (s.flatMap escChar).length := by
  induction s with
  | nil => simp
  | cons c cs ih =>
    simp only [List.flatMap_cons, List.length_append, List.length_cons]
    have := escChar_length_pos c
    omega

theorem unhex_hexDig : ∀ d < 16, unhex (hexDig d) = some d := by decide

theorem hex4_toHex4 (n : Nat) (r : List Char) (h : n < 65536) :
    hex4 (toHex4 n ++ r) = some (n, r) := by
  have h0 : n / 4096 % 16 < 16 := Nat.mod_lt _ (by norm_num)
  have h1 : n / 256 % 16 < 16 := Nat.mod_lt _ (by norm_num)
  have h2 : n / 16 % 16 < 16 := Nat.mod_lt _ (by norm_num)
  have h3 : n % 16 < 16 := Nat.mod_lt _ (by norm_num)
  simp only [toHex4, List.cons_append, List.nil_append, hex4,
    unhex_hexDig _ h0, unhex_hexDig _ h1, unhex_hexDig _ h2, unhex_hexDig _ h3]
  congr 1
  congr 1
  omega

theorem decodeEsc_simple (c : Char) (t : List Char) (d : Char) (hu : c ≠ 'u')
    (hm : escMap c = some d) : decodeEsc (c :: t) = some ([d], t) := by
  unfold decodeEsc
  split
  · simp_all
  · rename_i heq
    rw [List.cons.injEq] at heq
    exact absurd heq.1 hu
  · rename_i heq
    rw [List.cons.injEq] at heq
    obtain ⟨rfl, rfl⟩ := heq
    simp [hm]

theorem decodeEsc_u_eq (rest : List Char) : decodeEsc ('u' :: rest) = decodeU rest := rfl

theorem decodePair_cons (u1 : Nat) (r2 : List Char) :
    decodePair u1 ('\\' :: 'u' :: r2) =
      match hex4 r2 with
      | none => none
      | some (u2, r3) =>
        if 56320 ≤ u2 ∧ u2 ≤ 57343 then
          some ([Char.ofNat (65536 + (u1 - 55296) * 1024 + (u2 - 56320))], r3)
        else none := rfl

theorem decodeEsc_u (n : Nat) (t : List Char) (h : n < 65536)
    (hs : n < 55296 ∨ 57343 < n) :
    decodeEsc ('u' :: (toHex4 n ++ t)) = some ([Char.ofNat n], t) := by
  rw [decodeEsc_u_eq]
  unfold decodeU
  rw [hex4_toHex4 n t h]
  have h1 : ¬(55296 ≤ n ∧ n ≤ 56319) := by omega
  have h2 : ¬(56320 ≤ n ∧ n ≤ 57343) := by omega
  simp only [h1, h2, if_false]

theorem decodeEsc_upair (m : Nat) (t : List Char) (h : m < 1048576) :
    decodeEsc ('u' :: (toHex4 (55296 + m / 1024) ++
      ('\\' :: 'u' :: (toHex4 (56320 + m % 1024) ++ t)))) =
      some ([Char.ofNat (65536 + m)], t) := by
  have hdlt : m / 1024 < 1024 := by omega
  have hmlt : m % 1024 < 1024 := by omega
  rw [decodeEsc_u_eq]
  unfold decodeU
  rw [hex4_toHex4 _ _ (by omega)]
  have h1 : 55296 ≤ 55296 + m / 1024 ∧ 55296 + m / 1024 ≤ 56319 := by omega
  dsimp only
  rw [if_pos h1]
  rw [decodePair_cons]
  rw [hex4_toHex4 _ _ (by omega)]
  have h2 : 56320 ≤ 56320 + m % 1024 ∧ 56320 + m % 1024 ≤ 57343 := by omega
  dsimp only
  rw [if_pos h2]
  have harith : 65536 + (55296 + m / 1024 - 55296) * 1024 + (56320 + m % 1024 - 56320) =
      65536 + m := by omega
  rw [harith]

theorem scanS_quote (f : Nat) (t : List Char) : scanS (f + 1) ('"' :: t) = some ([], t) := by
  simp [scanS]

theorem scanS_esc (f : Nat) (t out r1 : List Char)
    (hd : decodeEsc t = some (out, r1)) :
    scanS (f + 1) ('\\' :: t) =
      (scanS f r1).map (fun p => (out ++ p.1, p.2)) := by
  conv_lhs => rw [scanS]
  rw [if_neg (by decide), if_pos rfl, hd]
  dsimp only
  rcases hsc : scanS f r1 with _ | ⟨s, r2⟩ <;> rfl

theorem scanS_normal (f : Nat) (c : Char) (t : List Char) (h1 : c ≠ '"') (h2 : c ≠ '\\')
    (h3 : ¬ c.toNat < 32) :
    scanS (f + 1) (c :: t) = (scanS f t).map (fun p => (c :: p.1, p.2)) := by
  conv_lhs => rw [scanS]
  rw [if_neg h1, if_neg h2, if_neg h3]
  rcases hsc : scanS f t with _ | ⟨s, r2⟩ <;> rfl

theorem char_toNat_valid (c : Char) :
    c.toNat < 55296 ∨ (57343 < c.toNat ∧ c.toNat < 1114112) := by
  rcases c.valid with h | ⟨h1, h2⟩
  · exact Or.inl h
  · exact Or.inr ⟨h1, h2⟩

theorem scanS_escChar (c : Char) (f : Nat) (t : List Char) :
    scanS (f + 1) (escChar c ++ t) = (scanS f t).map (fun p => (c :: p.1, p.2)) := by
  have hval := char_toNat_valid c
  unfold escChar
  dsimp only
  split_ifs with hbs hq h8 h9 h10 h12 h13 hrange hlow
  · subst hbs
    rw [List.cons_append, List.cons_append, List.nil_append,
      scanS_esc f _ ['\\'] t (decodeEsc_simple '\\' t '\\' (by decide) (by decide))]
    rcases scanS f t with _ | ⟨s, r2⟩ <;> rfl
  · subst hq
    rw [List.cons_append, List.cons_append, List.nil_append,
      scanS_esc f _ ['"'] t (decodeEsc_simple '"' t '"' (by decide) (by decide))]
    rcases scanS f t with _ | ⟨s, r2⟩ <;> rfl
  · have hc : c = Char.ofNat 8 := by rw [← h8, Char.ofNat_toNat]
    subst hc
    rw [List.cons_append, List.cons_append, List.nil_append,
      scanS_esc f _ [Char.ofNat 8] t (decodeEsc_simple 'b' t (Char.ofNat 8) (by decide) (by decide))]
    rcases scanS f t with _ | ⟨s, r2⟩ <;> rfl
  · have hc : c = Char.ofNat 9 := by rw [← h9, Char.ofNat_toNat]
    subst hc
    rw [List.cons_append, List.cons_append, List.nil_append,
      scanS_esc f _ [Char.ofNat 9] t (decodeEsc_simple 't' t (Char.ofNat 9) (by decide) (by decide))]
    rcases scanS f t with _ | ⟨s, r2⟩ <;> rfl
  · have hc : c = Char.ofNat 10 := by rw [← h10, Char.ofNat_toNat]
    subst hc
    rw [List.cons_append, List.cons_append, List.nil_append,
      scanS_esc f _ [Char.ofNat 10] t (decodeEsc_simple 'n' t (Char.ofNat 10) (by decide) (by decide))]
    rcases scanS f t with _ | ⟨s, r2⟩ <;> rfl
  · have hc : c = Char.ofNat 12 := by rw [← h12, Char.ofNat_toNat]
    subst hc
    rw [List.cons_append, List.cons_append, List.nil_append,
      scanS_esc f _ [Char.ofNat 12] t (decodeEsc_simple 'f' t (Char.ofNat 12) (by decide) (by decide))]
    rcases scanS f t with _ | ⟨s, r2⟩ <;> rfl
  · have hc : c = Char.ofNat 13 := by rw [← h13, Char.ofNat_toNat]
    subst hc
    rw [List.cons_append, List.cons_append, List.nil_append,
      scanS_esc f _ [Char.ofNat 13] t (decodeEsc_simple 'r' t (Char.ofNat 13) (by decide) (by decide))]
    rcases scanS f t with _ | ⟨s, r2⟩ <;> rfl
  · -- the \uXXXX case for a scalar below 0x10000
    rw [List.cons_append, List.cons_append,
      scanS_esc f _ [Char.ofNat c.toNat] t
        (decodeEsc_u c.toNat t hlow (by rcases hval with h | ⟨h1, h2⟩ <;> omega))]
    rw [Char.ofNat_toNat]
    rcases scanS f t with _ | ⟨s, r2⟩ <;> rfl
  · -- the surrogate-pair case for an astral scalar
    rcases hval with h | ⟨hva, hvb⟩
    · omega
    have hm : c.toNat - 65536 < 1048576 := by omega
    rw [List.cons_append, List.cons_append, List.append_assoc, List.cons_append,
      List.cons_append]
    rw [scanS_esc f _ [Char.ofNat (65536 + (c.toNat - 65536))] t
        (by simpa using decodeEsc_upair (c.toNat - 65536) t hm)]
    have : 65536 + (c.toNat - 65536) = c.toNat := by omega
    rw [this, Char.ofNat_toNat]
    rcases scanS f t with _ | ⟨s, r2⟩ <;> rfl
  · -- passthrough character
    rw [List.cons_append, List.nil_append]
    rw [scanS_normal f c t hq hbs (by simp at hrange; omega)]

theorem scanS_encBody_slack (s : List Char) (f : Nat) (t : List Char) :
    scanS (f + s.length + 1) (s.flatMap escChar ++ '"' :: t) = some (s, t) := by
  induction s generalizing f with
  | nil => simpa using scanS_quote f t
  | cons c cs ih =>
    rw [List.flatMap_cons, List.append_assoc]
    have hfuel : f + (c :: cs).length + 1 = (f + cs.length + 1) + 1 := by
      simp [List.length_cons]
      omega
    rw [hfuel, scanS_escChar c (f + cs.length + 1) (cs.flatMap escChar ++ '"' :: t), ih f]
    rfl

theorem scanS_encBody (s t : List Char) :
    scanS ((s.flatMap escChar ++ '"' :: t).length + 1) (s.flatMap escChar ++ '"' :: t) =
      some (s, t) := by
  have hlen : s.length ≤ (s.flatMap escChar ++ '"' :: t).length := by
    rw [List.length_append]
    have := length_le_flatMap_escChar s
    omega
  have heq : (s.flatMap escChar ++ '"' :: t).length + 1 =
      ((s.flatMap escChar ++ '"' :: t).length - s.length) + s.length + 1 := by omega
  rw [heq]
  exact scanS_encBody_slack s _ t

theorem itemsEnc_cons_head (x : List Char) (xs : List (List Char)) :
    ∃ b, itemsEnc (x :: xs) = '"' :: b := by
  cases xs with
  | nil => exact ⟨x.flatMap escChar ++ ['"'], rfl⟩
  | cons y ys =>
    refine ⟨(x.flatMap escChar ++ ['"']) ++ ',' :: ' ' :: sepByCommaSpace ((y :: ys).map encStr), ?_⟩
    simp [itemsEnc, sepByCommaSpace, encStr]

theorem length_le_itemsEnc (x : List Char) (xs : List (List Char)) :
    (x :: xs).length ≤ (itemsEnc (x :: xs)).length := by
  induction xs generalizing x with
  | nil => simp [itemsEnc, sepByCommaSpace, encStr]
  | cons y ys ih =>
    have hy := ih y
    rw [itemsEnc, List.map_cons, List.map_cons]
    rw [show sepByCommaSpace (encStr x :: encStr y :: ys.map encStr) =
        encStr x ++ ',' :: ' ' :: sepByCommaSpace (encStr y :: ys.map encStr) from rfl]
    rw [List.length_append]
    rw [show itemsEnc (y :: ys) = sepByCommaSpace (encStr y :: ys.map encStr) from rfl] at hy
    simp only [List.length_cons] at *
    have hx : 1 ≤ (encStr x).length := by simp [encStr]
    omega

theorem jsonWs_quote : jsonWs '"' = false := rfl

theorem skipWs_cons (c : Char) (l : List Char) (h : jsonWs c = false) :
    skipWs (c :: l) = c :: l := by
  simp [skipWs, List.dropWhile_cons, h]

theorem skipWs_space (l : List Char) : skipWs (' ' :: l) = skipWs l := by
  rw [skipWs, skipWs, List.dropWhile_cons, if_pos (show jsonWs ' ' = true from rfl)]

theorem scanItems_enc_slack (xs : List (List Char)) (x : List Char) (f : Nat)
    (t : List Char) :
    scanItems (f + xs.length + 1) (itemsEnc (x :: xs) ++ ']' :: t) = some (x :: xs, t) := by
  induction xs generalizing x f with
  | nil =>
    show scanItems (f + 0 + 1) _ = _
    rw [itemsEnc]
    simp only [List.map_cons, List.map_nil, sepByCommaSpace, encStr,
      List.cons_append, List.append_assoc, List.singleton_append, List.nil_append]
    conv_lhs => rw [scanItems]
    rw [scanS_encBody x (']' :: t)]
    dsimp only
    rw [skipWs_cons ']' t rfl]
    rfl
  | cons y ys ih2 =>
    have hfuel : f + (y :: ys).length + 1 = (f + ys.length + 1) + 1 := by
      simp only [List.length_cons]
      omega
    rw [hfuel, itemsEnc]
    simp only [List.map_cons, sepByCommaSpace, encStr,
      List.cons_append, List.append_assoc, List.singleton_append, List.nil_append]
    conv_lhs => rw [scanItems]
    rw [scanS_encBody x (',' :: ' ' :: (sepByCommaSpace (('"' :: (y.flatMap escChar ++ ['"'])) :: ys.map encStr) ++ ']' :: t))]
    dsimp only
    rw [skipWs_cons ',' _ rfl]
    split
    · rename_i r2 heq
      rw [List.cons.injEq] at heq
      obtain ⟨-, rfl⟩ := heq
      rw [skipWs_space]
      have hS : sepByCommaSpace (('"' :: (y.flatMap escChar ++ ['"'])) :: ys.map encStr) =
          itemsEnc (y :: ys) := rfl
      rw [hS]
      obtain ⟨b, hb⟩ := itemsEnc_cons_head y ys
      rw [hb, List.cons_append, skipWs_cons '"' _ rfl, ← List.cons_append, ← hb, ih2 y f]
    · rename_i heq
      rw [List.cons.injEq] at heq
      exact absurd heq.1 (by decide)
    · rename_i h1 h2
      exact absurd rfl (h1 _)

theorem scanItems_enc (x : List Char) (xs : List (List Char)) (t : List Char) :
    scanItems ((itemsEnc (x :: xs) ++ ']' :: t).length + 1) (itemsEnc (x :: xs) ++ ']' :: t) =
      some (x :: xs, t) := by
  have hlen := length_le_itemsEnc x xs
  have heq : (itemsEnc (x :: xs) ++ ']' :: t).length + 1 =
      ((itemsEnc (x :: xs) ++ ']' :: t).length - xs.length) + xs.length + 1 := by
    rw [List.length_append]
    simp only [List.length_cons] at *
    omega
  rw [heq]
  exact scanItems_enc_slack xs x _ t

theorem map_mk_data (l : List String) : (l.map String.data).map String.mk = l := by
  induction l with
  | nil => rfl
  | cons a as ih => simp only [List.map_cons, ih, mk_data]

theorem json_dumps_roundtrip (l : List String) : json_loads (json_dumps l) = some l := by
  cases l with
  | nil => rfl
  | cons x xs =>
    rw [json_dumps, json_loads]
    dsimp only [mk_data]
    rw [show ((x :: xs).map fun s => encStr s.data) = ((x :: xs).map String.data).map encStr by
      rw [List.map_map]; rfl]
    rw [show sepByCommaSpace (((x :: xs).map String.data).map encStr) =
      itemsEnc ((x :: xs).map String.data) from rfl]
    simp only [List.map_cons]
    rw [show ('[' : Char) :: (itemsEnc (x.data :: xs.map String.data) ++ [']']) =
      '[' :: (itemsEnc (x.data :: xs.map String.data) ++ ']' :: ([] : List Char)) from rfl]
    obtain ⟨b, hb⟩ := itemsEnc_cons_head x.data (xs.map String.data)
    rw [skipWs_cons '[' _ rfl]
    split
    · rename_i r heq
      rw [List.cons.injEq] at heq
      obtain ⟨-, rfl⟩ := heq
      rw [hb, List.cons_append, skipWs_cons '"' _ rfl]
      split
      · rename_i r2 heq2
        rw [List.cons.injEq] at heq2
        exact absurd heq2.1 (by decide)
      · rename_i r1 hne
        rw [← List.cons_append, ← hb]
        rw [scanItems_enc x.data (xs.map String.data) []]
        dsimp only
        rw [if_pos (show skipWs [] = [] from rfl)]
        rw [show (x.data :: xs.map String.data) = ((x :: xs).map String.data) from rfl]
        rw [map_mk_data]
    · rename_i h1
      exact absurd rfl (h1 _)

/-! ## Lemmas: the ORDER BY model -/

theorem insertByExecDesc_perm (r : ExecRow) (l : List ExecRow) :
    List.Perm (insertByExecDesc r l) (r :: l) := by
  induction l with
  | nil => exact List.Perm.refl _
  | cons x xs ih =>
    unfold insertByExecDesc
    split
    · exact List.Perm.refl _
    · exact (ih.cons x).trans (List.Perm.swap r x xs)

theorem sortByExecDesc_perm (l : List ExecRow) : List.Perm (sortByExecDesc l) l := by
  induction l with
  | nil => exact List.Perm.refl _
  | cons x xs ih => exact (insertByExecDesc_perm x _).trans (ih.cons x)

theorem insertByExecDesc_pairwise (r : ExecRow) (l : List ExecRow)
    (h : l.Pairwise (fun a b => b.executed_at ≤ a.executed_at)) :
    (insertByExecDesc r l).Pairwise (fun a b => b.executed_at ≤ a.executed_at) := by
  induction l with
  | nil => simp [insertByExecDesc]
  | cons x xs ih =>
    rw [List.pairwise_cons] at h
    obtain ⟨hx, hxs⟩ := h
    unfold insertByExecDesc
    split
    · rename_i hle
      rw [List.pairwise_cons]
      refine ⟨fun y hy => ?_, ?_⟩
      · rcases List.mem_cons.mp hy with rfl | hmem
        · exact hle
        · exact le_trans (hx y hmem) hle
      · rw [List.pairwise_cons]
        exact ⟨hx, hxs⟩
    · rename_i hgt
      rw [List.pairwise_cons]
      refine ⟨fun y hy => ?_, ih hxs⟩
      have hy2 := (insertByExecDesc_perm r xs).mem_iff.mp hy
      rcases List.mem_cons.mp hy2 with rfl | hmem
      · exact le_of_not_le hgt
      · exact hx y hmem

theorem sortByExecDesc_pairwise (l : List ExecRow) :
    (sortByExecDesc l).Pairwise (fun a b => b.executed_at ≤ a.executed_at) := by
  induction l with
  | nil => exact List.Pairwise.nil
  | cons x xs ih => exact insertByExecDesc_pairwise x _ ih

/-! ## Claim theorems -/

/-- C5: for a fire whose external program exceeds the configured timeout
(`subprocess.run(..., timeout=60)`), exactly one execution record is
appended for that fire, with return code -1, empty stdout, and the timeout
message as stderr (the source's literal is the Chinese `执行超时`,
"execution timed out"); the task rows and the armed registry are
untouched. -/
theorem timeoutRecordsSingleLog (tid path : String) (args : List String) (now : String)
    (s : SysState) :
    (execute_task tid path args ExecOutcome.timedOut now s).db.history =
      s.db.history ++ [ExecRow.mk s.db.nextId tid now (-1) "" "执行超时"] ∧
    (execute_task tid path args ExecOutcome.timedOut now s).db.tasks = s.db.tasks ∧
    (execute_task tid path args ExecOutcome.timedOut now s).registry = s.registry ∧
    executionTimeoutSeconds = 60 :=
  ⟨rfl, rfl, rfl, rfl⟩

/-- C2: adding a task definition whose `task_id` is already stored raises
`ValueError("任务ID已存在: ...")` synchronously and returns the state
completely unchanged: every stored row (including its `updated_at`) and
the armed registry are exactly as before. -/
theorem addDuplicateUnchanged (s : SysState) (d : TaskData) (now : String)
    (h : ∃ r ∈ s.db.tasks, r.task_id = d.task_id) :
    scheduler_add_task d false now s =
      (s, Except.error (PyErr.valueError ("任务ID已存在: " ++ d.task_id))) := by
  obtain ⟨r, hr, hid⟩ := h
  have hany : s.db.tasks.any (fun r => r.task_id == d.task_id) = true :=
    List.any_eq_true.mpr ⟨r, hr, beq_iff_eq.mpr hid⟩
  simp [scheduler_add_task, db_add_task, hany]

/-- Witness for C2 at a concrete duplicate id. -/
theorem addDuplicateUnchangedWitness :
    (∃ r ∈ stateA1.db.tasks, r.task_id = dupTask.task_id) ∧
    scheduler_add_task dupTask false "2024-01-02T00:00:00" stateA1 =
      (stateA1, Except.error (PyErr.valueError ("任务ID已存在: " ++ dupTask.task_id))) :=
  ⟨⟨rowA1, by simp [stateA1, rowA1], rfl⟩,
   addDuplicateUnchanged stateA1 dupTask "2024-01-02T00:00:00"
     ⟨rowA1, by simp [stateA1, rowA1], rfl⟩⟩

/-- C9 (amended): `get_execution_history` always returns records sorted
most-recent-first by `executed_at`; with no `task_id` it returns all
records, and with a **non-empty** `task_id` exactly the records
referencing that task.  (An empty-string `task_id` falls through the
Python truthiness check `if task_id:` and behaves like no filter; see the
counterexample.) -/
theorem historyQuerySortedFiltered (db : DBState) (tid : String) :
    ((get_execution_history none db).Pairwise (fun a b => b.executed_at ≤ a.executed_at) ∧
      List.Perm (get_execution_history none db) db.history) ∧
    (tid ≠ "" →
      (get_execution_history (some tid) db).Pairwise
        (fun a b => b.executed_at ≤ a.executed_at) ∧
      List.Perm (get_execution_history (some tid) db)
        (db.history.filter (fun r => r.task_id == tid)) ∧
      ∀ r ∈ get_execution_history (some tid) db, r.task_id = tid) := by
  constructor
  · exact ⟨sortByExecDesc_pairwise _, sortByExecDesc_perm _⟩
  · intro hne
    have hq : get_execution_history (some tid) db =
        sortByExecDesc (db.history.filter (fun r => r.task_id == tid)) := by
      simp [get_execution_history, hne]
    rw [hq]
    refine ⟨sortByExecDesc_pairwise _, sortByExecDesc_perm _, fun r hr => ?_⟩
    have hmem := (sortByExecDesc_perm _).mem_iff.mp hr
    exact beq_iff_eq.mp (List.mem_filter.mp hmem).2

/-- Counterexample to C9 as stated: calling the query **with** the (legal)
task_id `""` returns all records — here the record of task `x` — rather
than exactly the records referencing task `""`. -/
theorem historyQueryEmptyIdReturnsAll :
    get_execution_history (some "") histDB = [recX] ∧ recX.task_id ≠ "" :=
  ⟨rfl, by decide⟩

/-- Witness for C9 at a concrete non-empty id. -/
theorem historyQuerySortedFilteredWitness :
    ("x" : String) ≠ "" ∧ ∀ r ∈ get_execution_history (some "x") histDB, r.task_id = "x" :=
  ⟨by decide, ((historyQuerySortedFiltered histDB "x").2 (by decide)).2.2⟩

/-- C4 (code bug surfaced): removing an absent id leaves the state
unchanged, but the "not found" report intended by the code (it raises
`HTTPException(404, "任务不存在: ...")`) is swallowed by the blanket
`except Exception` in `main.delete_task` and re-surfaces as an HTTP 500
wrapping the 404 text, contradicting the spec's "reports not found,
never raises". -/
theorem deleteAbsentGives500 :
    delete_task_endpoint "nonexistent" emptyState =
      (emptyState, Except.error (500, "删除任务失败: 404: 任务不存在: nonexistent")) ∧
    (delete_task_endpoint "nonexistent" emptyState).1.db.tasks = emptyState.db.tasks ∧
    (delete_task_endpoint "nonexistent" emptyState).1.db.history = emptyState.db.history :=
  ⟨rfl, rfl, rfl⟩

/-- C10: `update_task_status` returns true iff a row with the given id
existed, leaves the execution records and the AUTOINCREMENT counter
untouched, keeps every row in place, rewrites only the matching row's
`status` and `updated_at`, preserves all its other columns, and leaves
every non-matching row literally unchanged. -/
theorem updateStatusFrame (db : DBState) (tid st now : String) :
    ((update_task_status tid st now db).1 = true ↔ ∃ r ∈ db.tasks, r.task_id = tid) ∧
    (update_task_status tid st now db).2.history = db.history ∧
    (update_task_status tid st now db).2.nextId = db.nextId ∧
    (update_task_status tid st now db).2.tasks.length = db.tasks.length ∧
    ∀ i, ∀ h : i < db.tasks.length, ∀ h2 : i < (update_task_status tid st now db).2.tasks.length,
      ((update_task_status tid st now db).2.tasks[i].task_id = db.tasks[i].task_id ∧
       (update_task_status tid st now db).2.tasks[i].task_type = db.tasks[i].task_type ∧
       (update_task_status tid st now db).2.tasks[i].interval_seconds = db.tasks[i].interval_seconds ∧
       (update_task_status tid st now db).2.tasks[i].cron_expression = db.tasks[i].cron_expression ∧
       (update_task_status tid st now db).2.tasks[i].execute_at = db.tasks[i].execute_at ∧
       (update_task_status tid st now db).2.tasks[i].script_path = db.tasks[i].script_path ∧
       (update_task_status tid st now db).2.tasks[i].script_args = db.tasks[i].script_args ∧
       (update_task_status tid st now db).2.tasks[i].created_at = db.tasks[i].created_at) ∧
      (db.tasks[i].task_id = tid →
        (update_task_status tid st now db).2.tasks[i].status = st ∧
        (update_task_status tid st now db).2.tasks[i].updated_at = now) ∧
      (db.tasks[i].task_id ≠ tid →
        (update_task_status tid st now db).2.tasks[i] = db.tasks[i]) := by
  refine ⟨?_, rfl, rfl, by simp [update_task_status], fun i h h2 => ?_⟩
  · simp [update_task_status, List.any_eq_true]
  · have hget : (update_task_status tid st now db).2.tasks[i] =
        (fun r => if r.task_id == tid then { r with status := st, updated_at := now } else r)
          db.tasks[i] :=
      List.getElem_map _
    by_cases hid : db.tasks[i].task_id = tid
    · rw [hget]
      simp [hid]
    · rw [hget]
      simp [beq_iff_eq, hid]

/-- Witness for C10 at a concrete store and status value. -/
theorem updateStatusFrameWitness :
    (update_task_status "a1" "completed" "2024-01-03T00:00:00" stateA1.db).1 = true ∧
    (update_task_status "nope" "completed" "2024-01-03T00:00:00" stateA1.db).1 = false := by
  constructor
  · exact (updateStatusFrame stateA1.db "a1" "completed" "2024-01-03T00:00:00").1.mpr
      ⟨rowA1, by simp [stateA1, rowA1], rfl⟩
  · have h := (updateStatusFrame stateA1.db "nope" "completed" "2024-01-03T00:00:00").1
    rcases hb : (update_task_status "nope" "completed" "2024-01-03T00:00:00" stateA1.db).1 with _ | _
    · rfl
    · exfalso
      obtain ⟨r, hr, hid⟩ := h.mp hb
      simp [stateA1, rowA1] at hr
      subst hr
      exact absurd hid (by decide)

/-! ## Lemmas: the add path -/

theorem db_add_task_fresh (d : TaskData) (now : String) (db : DBState)
    (h : db.tasks.any (fun r => r.task_id == d.task_id) = false) :
    db_add_task d now db = (true, { db with tasks := db.tasks ++ [taskRowOf d now] }) := by
  simp [db_add_task, h]

theorem create_trigger_cron_invalid (d : TaskData) (e : String)
    (htype : d.task_type = "cron") (hexpr : d.cron_expression = some e)
    (hbad : cronExprInvalid e = true) :
    ∃ m, create_trigger d = Except.error (PyErr.valueError m) := by
  unfold create_trigger
  rw [htype, hexpr]
  rw [show (("cron" : String) == "interval") = false from rfl,
    show (("cron" : String) == "cron") = true from rfl]
  simp only [Bool.false_eq_true, if_false, if_true]
  unfold cronExprInvalid at hbad
  split
  · rename_i mi h da mo dw heq
    rw [heq] at hbad
    simp only [Bool.not_eq_eq_eq_not, Bool.not_true] at hbad
    rw [if_neg (by rw [hbad]; exact Bool.false_ne_true)]
    exact ⟨_, rfl⟩
  · exact ⟨_, rfl⟩

theorem scheduler_add_task_trigger_error (s : SysState) (d : TaskData) (now : String)
    (err : PyErr)
    (hanyf : s.db.tasks.any (fun r => r.task_id == d.task_id) = false)
    (htrig : create_trigger d = Except.error err) :
    scheduler_add_task d false now s =
      ({ s with db := { s.db with tasks := s.db.tasks ++ [taskRowOf d now] } },
        Except.error err) := by
  unfold scheduler_add_task
  rw [db_add_task_fresh d now s.db hanyf]
  simp only [Bool.false_eq_true, if_false]
  rw [htrig]

/-- C1 (counterexample to the claim as stated): adding a cron task whose
expression has three fields fails synchronously with a validation error —
but a task row with that `task_id` **is** persisted, because
`scheduler.add_task` writes to the database before building the trigger. -/
theorem addCronBadExprPersistsRow :
    (create_task cronBadTask "2024-01-01T00:00:00" emptyState).2 =
      Except.error (400, "无效的cron表达式: * * *") ∧
    ((create_task cronBadTask "2024-01-01T00:00:00" emptyState).1.db.tasks.any
      (fun r => r.task_id == "t1")) = true :=
  ⟨rfl, rfl⟩

/-- C1 (amended): for a cron task whose expression is invalid (wrong field
count or a field out of range) and whose id is fresh, `create_task` fails
synchronously with an error and arms no timer; when the expression is the
empty string the store is untouched (the truthiness check fires first),
but for any other invalid expression the task row has already been
persisted with status `active` and remains in the store. -/
theorem addCronInvalidExprBehavior (s : SysState) (d : TaskData) (now e : String)
    (htype : d.task_type = "cron") (hexpr : d.cron_expression = some e)
    (hbad : cronExprInvalid e = true)
    (hfresh : ∀ r ∈ s.db.tasks, r.task_id ≠ d.task_id) :
    (∃ m, (create_task d now s).2 = Except.error m) ∧
    (create_task d now s).1.registry = s.registry ∧
    (e = "" → (create_task d now s).1 = s) ∧
    (e ≠ "" → ∃ r ∈ (create_task d now s).1.db.tasks,
      r.task_id = d.task_id ∧ r.status = "active") := by
  have hanyf : s.db.tasks.any (fun r => r.task_id == d.task_id) = false := by
    rw [List.any_eq_false]
    intro r hr
    simp only [beq_iff_eq]
    exact hfresh r hr
  have hint : (d.task_type == "interval") = false := by rw [htype]; rfl
  have hcron : (d.task_type == "cron") = true := by rw [htype]; rfl
  have hdate : (d.task_type == "date") = false := by rw [htype]; rfl
  by_cases he : e = ""
  · subst he
    have hfal : pyFalsyStrOpt d.cron_expression = true := by rw [hexpr]; rfl
    have hres : create_task d now s =
        (s, Except.error (500, "创建任务失败: 400: cron类型需要提供cron_expression")) := by
      unfold create_task
      rw [hint, hcron, hfal]
      rfl
    rw [hres]
    exact ⟨⟨_, rfl⟩, rfl, fun _ => rfl, fun hne => absurd rfl hne⟩
  · have hfal : pyFalsyStrOpt d.cron_expression = false := by
      rw [hexpr]
      simp [pyFalsyStrOpt, he]
    obtain ⟨m, hm⟩ := create_trigger_cron_invalid d e htype hexpr hbad
    have hsched := scheduler_add_task_trigger_error s d now _ hanyf hm
    have hres : create_task d now s =
        ({ s with db := { s.db with tasks := s.db.tasks ++ [taskRowOf d now] } },
          Except.error (400, m)) := by
      unfold create_task
      rw [hint, hcron, hdate, hfal]
      simp only [Bool.false_and, Bool.and_false, Bool.false_eq_true, if_false]
      rw [hsched]
    rw [hres]
    refine ⟨⟨_, rfl⟩, rfl, fun habs => absurd habs he, fun _ => ?_⟩
    exact ⟨taskRowOf d now, List.mem_append_right _ (List.mem_singleton.mpr rfl), rfl, rfl⟩

/-- Witness for C1 at a concrete out-of-range five-field expression. -/
theorem addCronInvalidExprBehaviorWitness :
    cronExprInvalid "61 0 1 1 0" = true ∧
    ∃ r ∈ (create_task cronRangeTask "2024-01-01T00:00:00" emptyState).1.db.tasks,
      r.task_id = cronRangeTask.task_id ∧ r.status = "active" := by
  refine ⟨rfl, ?_⟩
  exact (addCronInvalidExprBehavior emptyState cronRangeTask "2024-01-01T00:00:00"
    "61 0 1 1 0" rfl rfl rfl
    (fun r hr => by simp [emptyState] at hr)).2.2.2 (by decide)

theorem scheduler_add_task_ok (s : SysState) (d : TaskData) (now : String) (tr : Trigger)
    (hanyf : s.db.tasks.any (fun r => r.task_id == d.task_id) = false)
    (htrig : create_trigger d = Except.ok tr) :
    scheduler_add_task d false now s =
      ({ s with
          db := { s.db with tasks := s.db.tasks ++ [taskRowOf d now] }
          registry := addJob s.registry (jobOf d tr) },
        Except.ok ()) := by
  unfold scheduler_add_task
  rw [db_add_task_fresh d now s.db hanyf]
  simp only [Bool.false_eq_true, if_false]
  rw [htrig]

/-- C6 (counterexample to the claim as stated): an interval task with
`interval_seconds = -5` is accepted: the add succeeds, the row is
persisted, and a timer is armed — the truthiness check
`not task.interval_seconds` only rejects a missing or zero value. -/
theorem negativeIntervalAccepted :
    (create_task negIntervalTask "2024-01-01T00:00:00" emptyState).2 =
      Except.ok ("任务已创建: i1") ∧
    ((create_task negIntervalTask "2024-01-01T00:00:00" emptyState).1.db.tasks.any
      (fun r => r.task_id == "i1")) = true ∧
    ((create_task negIntervalTask "2024-01-01T00:00:00" emptyState).1.registry.any
      (fun j => j.id == "i1")) = true :=
  ⟨rfl, rfl, rfl⟩

/-- C6 (amended): for an interval task, the add fails — with the state
completely unchanged, so nothing persisted and nothing armed — exactly
when `interval_seconds` is missing or zero (the failure surfaces as an
HTTP 500 wrapping the 400 validation message, because the endpoint's
blanket `except Exception` catches its own `HTTPException`); any nonzero
value, **including negative ones**, is accepted: the row is persisted and
a timer armed. -/
theorem intervalValidationBehavior (s : SysState) (d : TaskData) (now : String)
    (htype : d.task_type = "interval") :
    ((d.interval_seconds = none ∨ d.interval_seconds = some 0) →
      create_task d now s =
        (s, Except.error (500, "创建任务失败: 400: interval类型需要提供interval_seconds"))) ∧
    (∀ k : Int, d.interval_seconds = some k → k ≠ 0 →
      (∀ r ∈ s.db.tasks, r.task_id ≠ d.task_id) →
      create_task d now s =
        ({ s with
            db := { s.db with tasks := s.db.tasks ++ [taskRowOf d now] }
            registry := addJob s.registry (jobOf d (Trigger.interval k)) },
          Except.ok ("任务已创建: " ++ d.task_id))) := by
  have hint : (d.task_type == "interval") = true := by rw [htype]; rfl
  constructor
  · intro hz
    have hfal : pyFalsyIntOpt d.interval_seconds = true := by
      rcases hz with hz | hz <;> rw [hz] <;> rfl
    unfold create_task
    rw [hint, hfal]
    rfl
  · intro k hk hnz hfresh
    have hanyf : s.db.tasks.any (fun r => r.task_id == d.task_id) = false := by
      rw [List.any_eq_false]
      intro r hr
      simp only [beq_iff_eq]
      exact hfresh r hr
    have hfal : pyFalsyIntOpt d.interval_seconds = false := by
      rw [hk]
      simp [pyFalsyIntOpt, hnz]
    have htrig : create_trigger d = Except.ok (Trigger.interval k) := by
      unfold create_trigger
      rw [hint, hk]
      rfl
    have hcron : (d.task_type == "cron") = false := by rw [htype]; rfl
    have hdate : (d.task_type == "date") = false := by rw [htype]; rfl
    unfold create_task
    rw [hint, hfal, hcron, hdate]
    simp only [Bool.and_false, Bool.false_and, Bool.false_eq_true, if_false]
    rw [scheduler_add_task_ok s d now (Trigger.interval k) hanyf htrig]

/-- Witness for C6: zero is rejected with the state unchanged; a negative
interval is accepted. -/
theorem intervalValidationBehaviorWitness :
    create_task zeroIntervalTask "2024-01-01T00:00:00" emptyState =
      (emptyState, Except.error (500, "创建任务失败: 400: interval类型需要提供interval_seconds")) ∧
    (create_task negIntervalTask "2024-01-01T00:00:00" emptyState).2 =
      Except.ok ("任务已创建: " ++ negIntervalTask.task_id) := by
  constructor
  · exact (intervalValidationBehavior emptyState zeroIntervalTask "2024-01-01T00:00:00"
      rfl).1 (Or.inr rfl)
  · rw [(intervalValidationBehavior emptyState negIntervalTask "2024-01-01T00:00:00"
      rfl).2 (-5) rfl (by decide) (fun r hr => by simp [emptyState] at hr)]

/-! ## Lemmas: rows and traversal -/

theorem db_get_task_congr (db1 db2 : DBState) (h : db1.tasks = db2.tasks) (tid : String) :
    db_get_task db1 tid = db_get_task db2 tid := by
  unfold db_get_task
  rw [h]

theorem row_to_dict_id (r : TaskRow) (t : TaskData) (h : row_to_dict r = some t) :
    t.task_id = r.task_id := by
  unfold row_to_dict at h
  split at h
  · exact absurd h (by simp)
  · obtain ⟨args, -, rfl⟩ := Option.map_eq_some'.mp h
    rfl

theorem traverseRows_mem (l : List TaskRow) (res : List TaskData)
    (h : traverseRows l = some res) : ∀ t ∈ res, ∃ r ∈ l, row_to_dict r = some t := by
  induction l generalizing res with
  | nil =>
    unfold traverseRows at h
    cases h
    simp
  | cons r rest ih =>
    unfold traverseRows at h
    cases hr : row_to_dict r with
    | none => rw [hr] at h; exact absurd h (by simp)
    | some d =>
      rw [hr] at h
      cases ht : traverseRows rest with
      | none => rw [ht] at h; exact absurd h (by simp)
      | some ds =>
        rw [ht] at h
        simp only [Option.some.injEq] at h
        subst h
        intro t htmem
        rcases List.mem_cons.mp htmem with rfl | hmem
        · exact ⟨r, List.mem_cons_self r rest, hr⟩
        · obtain ⟨r2, hr2, he2⟩ := ih ds ht t hmem
          exact ⟨r2, List.mem_cons_of_mem r hr2, he2⟩

/-- C3 (counterexample to the claim as stated): a Date task whose single
fire **times out** keeps status `active` and still appears in
`get_active_tasks` — the completion marking only happens in the
normal-exit branch of `_execute_task`. -/
theorem dateTimeoutStaysActive :
    (execute_task "d1" "scripts/remind.py" [] ExecOutcome.timedOut "2024-01-01T10:00:01"
      dateState).db.tasks = [dateRow] ∧
    dateRow.status = "active" ∧
    ((get_active_tasks (execute_task "d1" "scripts/remind.py" [] ExecOutcome.timedOut
      "2024-01-01T10:00:01" dateState).db).getD []).map (fun t => t.task_id) = ["d1"] :=
  ⟨rfl, rfl, rfl⟩

/-- C3 (amended): after a fire that **exits normally** (any return code),
a Date task's status becomes `completed` with `updated_at` refreshed, it
is excluded from `get_active_tasks`, its job is removed from the
registry, and exactly one execution record is appended for the fire; a
fire that times out or fails to spawn appends its single record but
leaves every task row — in particular the status — untouched. -/
theorem dateFireFinality (s : SysState) (tid path : String) (args : List String)
    (rc : Int) (out err now : String) (td : TaskData)
    (hget : db_get_task s.db tid = Except.ok (some td))
    (htype : td.task_type = "date") :
    (∀ r ∈ (execute_task tid path args (ExecOutcome.exited rc out err) now s).db.tasks,
        r.task_id = tid → r.status = "completed" ∧ r.updated_at = now) ∧
    (∀ l, get_active_tasks
        (execute_task tid path args (ExecOutcome.exited rc out err) now s).db = some l →
        ∀ t ∈ l, t.task_id ≠ tid) ∧
    (∀ j ∈ (execute_task tid path args (ExecOutcome.exited rc out err) now s).registry,
        j.id ≠ tid) ∧
    (execute_task tid path args (ExecOutcome.exited rc out err) now s).db.history =
      s.db.history ++ [ExecRow.mk s.db.nextId tid now rc out err] ∧
    (execute_task tid path args ExecOutcome.timedOut now s).db.tasks = s.db.tasks ∧
    (∀ msg, (execute_task tid path args (ExecOutcome.spawnFailure msg) now s).db.tasks =
        s.db.tasks) := by
  have hdq : (td.task_type == "date") = true := by rw [htype]; rfl
  have hexec : execute_task tid path args (ExecOutcome.exited rc out err) now s =
      SysState.mk
        (DBState.mk (s.db.tasks.map (completeRow tid now))
          (s.db.history ++ [ExecRow.mk s.db.nextId tid now rc out err])
          (s.db.nextId + 1))
        (s.registry.filter (fun j => j.id != tid)) := by
    unfold execute_task
    dsimp only
    rw [db_get_task_congr (add_execution_log tid rc out err now s.db) s.db rfl tid, hget]
    dsimp only
    rw [hdq]
    rfl
  refine ⟨?_, ?_, ?_, ?_, rfl, fun msg => rfl⟩
  · rw [hexec]
    intro r hr hid
    obtain ⟨r0, -, rfl⟩ := List.mem_map.mp hr
    unfold completeRow at hid ⊢
    by_cases h0 : r0.task_id = tid
    · rw [if_pos (beq_iff_eq.mpr h0)]
      exact ⟨rfl, rfl⟩
    · rw [if_neg (by simp [beq_iff_eq, h0])] at hid ⊢
      exact absurd hid h0
  · rw [hexec]
    intro l hl t htmem
    obtain ⟨r, hrmem, hrdec⟩ := traverseRows_mem _ l hl t htmem
    obtain ⟨hrm, hract⟩ := List.mem_filter.mp hrmem
    obtain ⟨r0, -, rfl⟩ := List.mem_map.mp hrm
    rw [row_to_dict_id _ _ hrdec]
    unfold completeRow at hract ⊢
    by_cases h0 : r0.task_id = tid
    · rw [if_pos (beq_iff_eq.mpr h0)] at hract
      simp at hract
    · rw [if_neg (by simp [beq_iff_eq, h0])]
      exact h0
  · rw [hexec]
    intro j hj
    have := (List.mem_filter.mp hj).2
    simpa [bne_iff_ne] using this
  · rw [hexec]

/-- Witness for C3: a concrete normal-exit fire of the armed date task. -/
theorem dateFireFinalityWitness :
    (execute_task "d1" "scripts/remind.py" [] (ExecOutcome.exited 0 "ok" "")
      "2024-01-01T10:00:01" dateState).db.history =
      dateState.db.history ++
        [ExecRow.mk dateState.db.nextId "d1" "2024-01-01T10:00:01" 0 "ok" ""] :=
  (dateFireFinality dateState "d1" "scripts/remind.py" [] 0 "ok" "" "2024-01-01T10:00:01"
    dateTaskData rfl rfl).2.2.2.1

/-! ## Lemmas: the reload loop -/

theorem scheduler_add_task_fromDb (td : TaskData) (now : String) (st : SysState) :
    scheduler_add_task td true now st =
      match create_trigger td with
      | Except.error e => (st, Except.error e)
      | Except.ok tr =>
        ({ st with registry := addJob st.registry (jobOf td tr) }, Except.ok ()) := by
  unfold scheduler_add_task
  cases htr : create_trigger td <;> simp

theorem traverseRows_some (l : List TaskRow)
    (h : ∀ r ∈ l, ∃ td, row_to_dict r = some td) :
    ∃ res, traverseRows l = some res := by
  induction l with
  | nil => exact ⟨[], rfl⟩
  | cons r rest ih =>
    obtain ⟨td, htd⟩ := h r (List.mem_cons_self r rest)
    obtain ⟨res, hres⟩ := ih (fun q hq => h q (List.mem_cons_of_mem r hq))
    refine ⟨td :: res, ?_⟩
    unfold traverseRows
    rw [htd, hres]

theorem traverseRows_mem_rev (l : List TaskRow) (res : List TaskData)
    (h : traverseRows l = some res) :
    ∀ r ∈ l, ∀ td, row_to_dict r = some td → td ∈ res := by
  induction l generalizing res with
  | nil => simp
  | cons r rest ih =>
    unfold traverseRows at h
    cases hr : row_to_dict r with
    | none => rw [hr] at h; exact absurd h (by simp)
    | some d =>
      rw [hr] at h
      cases ht : traverseRows rest with
      | none => rw [ht] at h; exact absurd h (by simp)
      | some ds =>
        rw [ht] at h
        simp only [Option.some.injEq] at h
        subst h
        intro q hq td htd
        rcases List.mem_cons.mp hq with rfl | hmem
        · rw [hr] at htd
          simp only [Option.some.injEq] at htd
          subst htd
          exact List.mem_cons_self _ _
        · exact List.mem_cons_of_mem _ (ih ds ht q hmem td htd)

theorem pairwise_id_unique (l : List TaskRow)
    (h : l.Pairwise (fun a b => a.task_id ≠ b.task_id)) :
    ∀ r ∈ l, ∀ q ∈ l, r.task_id = q.task_id → r = q := by
  induction l with
  | nil => simp
  | cons x xs ih =>
    rw [List.pairwise_cons] at h
    obtain ⟨hx, hxs⟩ := h
    intro r hr q hq heq
    rcases List.mem_cons.mp hr with rfl | hrm
    · rcases List.mem_cons.mp hq with rfl | hqm
      · rfl
      · exact absurd heq (hx q hqm)
    · rcases List.mem_cons.mp hq with rfl | hqm
      · exact absurd heq.symm (hx r hrm)
      · exact ih hxs r hrm q hqm heq

theorem addJob_any (reg : List Job) (j : Job) (tid : String) :
    ((addJob reg j).any (fun x => x.id == tid) = true) ↔
      (j.id = tid ∨ reg.any (fun x => x.id == tid) = true) := by
  unfold addJob
  simp only [List.any_cons, Bool.or_eq_true, beq_iff_eq, List.any_eq_true]
  constructor
  · rintro (h | ⟨x, hx, hxid⟩)
    · exact Or.inl h
    · exact Or.inr ⟨x, (List.mem_filter.mp hx).1, hxid⟩
  · rintro (h | ⟨x, hx, hxid⟩)
    · exact Or.inl h
    · by_cases hsame : x.id = j.id
      · exact Or.inl (hsame ▸ hxid)
      · exact Or.inr ⟨x, List.mem_filter.mpr ⟨hx, by simp [bne_iff_ne, hsame]⟩, hxid⟩

theorem loadFold_db (now : String) (tds : List TaskData) (acc : SysState × Nat) :
    (loadFold now tds acc).1.db = acc.1.db := by
  induction tds generalizing acc with
  | nil => rfl
  | cons td tds ih =>
    rw [loadFold, scheduler_add_task_fromDb]
    cases htr : create_trigger td <;> dsimp only <;> rw [ih]

theorem loadFold_any (now : String) (tds : List TaskData) (st : SysState) (n : Nat)
    (tid : String) :
    (((loadFold now tds (st, n)).1.registry.any (fun j => j.id == tid)) = true) ↔
      (st.registry.any (fun j => j.id == tid) = true ∨
        ∃ td ∈ tds, td.task_id = tid ∧ trigOk td = true) := by
  induction tds generalizing st n with
  | nil => simp [loadFold]
  | cons td tds ih =>
    rw [loadFold, scheduler_add_task_fromDb]
    cases htr : create_trigger td with
    | error e =>
      dsimp only
      rw [ih]
      have hok : trigOk td = false := by unfold trigOk; rw [htr]
      simp only [List.exists_mem_cons_iff, hok, Bool.false_eq_true, and_false, false_or]
    | ok tr =>
      dsimp only
      rw [ih]
      have hok : trigOk td = true := by unfold trigOk; rw [htr]
      have hid : (jobOf td tr).id = td.task_id := rfl
      simp only [addJob_any, hid, List.exists_mem_cons_iff, hok, and_true]
      tauto

/-- C7 (counterexample to the claim as stated): a fresh reload of a store
whose only task is **active** but carries an unparseable cron expression
arms nothing — the per-task exception is logged and skipped — so "armed
iff Active" fails.  (Such rows are reachable: the add path persists the
row before trigger validation.) -/
theorem reloadSkipsUnparseableActive :
    load_tasks_from_db "2024-06-01T00:00:00" (SysState.mk badCronDB []) =
      some (SysState.mk badCronDB [], 0) ∧
    badCronRow.status = "active" ∧ badCronRow ∈ badCronDB.tasks :=
  ⟨rfl, rfl, by simp [badCronDB]⟩

/-- C7 (amended): a fresh reload of a store with pairwise-distinct task
ids and decodable rows succeeds, leaves the database unchanged, and arms
exactly the tasks whose persisted status is `active` **and** whose
trigger construction succeeds; in particular every `completed` task is
absent from the armed registry. -/
theorem reloadArmsActiveParseable (db : DBState) (now : String)
    (huniq : db.tasks.Pairwise (fun a b => a.task_id ≠ b.task_id))
    (hdec : ∀ r ∈ db.tasks, ∃ td, row_to_dict r = some td) :
    ∃ s2 n, load_tasks_from_db now (SysState.mk db []) = some (s2, n) ∧
      s2.db = db ∧
      ∀ r ∈ db.tasks, ∀ td, row_to_dict r = some td →
        ((s2.registry.any (fun j => j.id == r.task_id)) = true ↔
          (r.status = "active" ∧ trigOk td = true)) := by
  obtain ⟨actives, hact⟩ := traverseRows_some
    (db.tasks.filter (fun r => r.status == "active"))
    (fun r hr => hdec r (List.mem_filter.mp hr).1)
  have hload : load_tasks_from_db now (SysState.mk db []) =
      some (loadFold now actives (SysState.mk db [], 0)) := by
    unfold load_tasks_from_db get_active_tasks
    rw [hact]
    rfl
  refine ⟨(loadFold now actives (SysState.mk db [], 0)).1,
    (loadFold now actives (SysState.mk db [], 0)).2, by rw [hload], loadFold_db now actives _,
    fun r hr td htd => ?_⟩
  rw [loadFold_any now actives (SysState.mk db []) 0 r.task_id]
  simp only [List.any_nil, Bool.false_eq_true, false_or]
  constructor
  · rintro ⟨td2, htd2mem, htd2id, htd2ok⟩
    obtain ⟨r2, hr2mem, hr2dec⟩ := traverseRows_mem _ _ hact td2 htd2mem
    obtain ⟨hr2db, hr2act⟩ := List.mem_filter.mp hr2mem
    have hid2 : r2.task_id = r.task_id := by rw [← row_to_dict_id r2 td2 hr2dec, htd2id]
    have hr2eq : r2 = r := pairwise_id_unique db.tasks huniq r2 hr2db r hr hid2
    subst hr2eq
    rw [htd] at hr2dec
    simp only [Option.some.injEq] at hr2dec
    subst hr2dec
    exact ⟨beq_iff_eq.mp hr2act, htd2ok⟩
  · rintro ⟨hstat, hok⟩
    refine ⟨td, ?_, row_to_dict_id r td htd, hok⟩
    exact traverseRows_mem_rev _ _ hact r
      (List.mem_filter.mpr ⟨hr, beq_iff_eq.mpr hstat⟩) td htd

/-- Witness for C7 at the spec's restart scenario: one Active interval
task plus one Completed date task. -/
theorem reloadArmsActiveParseableWitness :
    ∃ s2 n, load_tasks_from_db "2024-06-01T00:00:00" (SysState.mk restartDB []) =
      some (s2, n) ∧
      s2.db = restartDB ∧
      ∀ r ∈ restartDB.tasks, ∀ td, row_to_dict r = some td →
        ((s2.registry.any (fun j => j.id == r.task_id)) = true ↔
          (r.status = "active" ∧ trigOk td = true)) :=
  reloadArmsActiveParseable restartDB "2024-06-01T00:00:00" (by decide)
    (by
      intro r hr
      simp only [restartDB, List.mem_cons, List.mem_singleton, List.not_mem_nil,
        or_false] at hr
      rcases hr with rfl | rfl
      · exact ⟨_, rfl⟩
      · exact ⟨_, rfl⟩)

/-! ## Lemmas: script_args round trip through the store -/

theorem json_dumps_ne_empty (l : List String) : json_dumps l ≠ "" := by
  unfold json_dumps
  intro h
  have : ('[' :: (sepByCommaSpace (l.map fun s => encStr s.data) ++ [']'])) =
      ("" : String).data := congrArg String.data h
  simp at this

theorem row_to_dict_taskRowOf (d : TaskData) (now : String) :
    row_to_dict (taskRowOf d now) = some d := by
  unfold row_to_dict taskRowOf
  dsimp only
  rw [if_neg (json_dumps_ne_empty d.script_args), json_dumps_roundtrip]
  rfl

/-- C8: when an add succeeds, the task read back through `get_task`
carries the original `script_args` verbatim (the `json.dumps` /
`json.loads` round trip on the stored column is the identity — last
conjunct — and it reproduces the whole creation payload), the armed job
holds the original list, and the command vector built for every execution
appends exactly that list after `["python", script_path]`. -/
theorem scriptArgsPreserved (s : SysState) (d : TaskData) (now : String) (s2 : SysState)
    (hok : scheduler_add_task d false now s = (s2, Except.ok ())) :
    (db_get_task s2.db d.task_id = Except.ok (some d)) ∧
    (∃ j ∈ s2.registry, j.id = d.task_id ∧ j.script_args = d.script_args ∧
      ∀ base, (buildCommand base j.script_path j.script_args).drop 2 = d.script_args) ∧
    (∀ l, json_loads (json_dumps l) = some l) := by
  unfold scheduler_add_task at hok
  simp only [Bool.false_eq_true, if_false] at hok
  cases hany : s.db.tasks.any (fun r => r.task_id == d.task_id) with
  | true =>
    unfold db_add_task at hok
    rw [hany] at hok
    simp only [if_true] at hok
    exact absurd (congrArg Prod.snd hok) (by simp)
  | false =>
    rw [db_add_task_fresh d now s.db hany] at hok
    dsimp only at hok
    cases htr : create_trigger d with
    | error e =>
      rw [htr] at hok
      exact absurd (congrArg Prod.snd hok) (by simp)
    | ok tr =>
      rw [htr] at hok
      have hs2 : s2 = { s with
          db := { s.db with tasks := s.db.tasks ++ [taskRowOf d now] }
          registry := addJob s.registry (jobOf d tr) } := (congrArg Prod.fst hok).symm
      subst hs2
      refine ⟨?_, ⟨jobOf d tr, List.mem_cons_self _ _, rfl, rfl, fun base => rfl⟩,
        json_dumps_roundtrip⟩
      unfold db_get_task
      have hfind : (s.db.tasks ++ [taskRowOf d now]).find?
          (fun r => r.task_id == d.task_id) = some (taskRowOf d now) := by
        rw [List.find?_append]
        have h1 : s.db.tasks.find? (fun r => r.task_id == d.task_id) = none := by
          rw [List.find?_eq_none]
          intro x hx
          rw [List.any_eq_false] at hany
          exact hany x hx
        rw [h1]
        simp [List.find?, taskRowOf]
      rw [show ({ s with
          db := { s.db with tasks := s.db.tasks ++ [taskRowOf d now] }
          registry := addJob s.registry (jobOf d tr) } : SysState).db.tasks =
        s.db.tasks ++ [taskRowOf d now] from rfl]
      rw [hfind]
      dsimp only
      rw [row_to_dict_taskRowOf]

/-- Witness for C8: the round trip at a concrete two-element argument
list, obtained by applying the theorem to a successful concrete add. -/
theorem scriptArgsPreservedWitness :
    json_loads (json_dumps ["hello", "world x"]) = some ["hello", "world x"] :=
  (scriptArgsPreserved emptyState argsTask "2024-01-01T00:00:00"
    (scheduler_add_task argsTask false "2024-01-01T00:00:00" emptyState).1 rfl).2.2
    ["hello", "world x"]

end TaskReminder
